import Mathlib

/-!
Verification development for the ts-upgrade rewrite engine.

The TypeScript sources are shallowly embedded: the expression grammar that the
transformer inspects becomes the inductive type `Expr`, the transformer closure
of `src/transformer.ts` becomes the fuel-indexed mutual functions `visitor`,
`upgradeConditionalExpression`, `upgradeBinaryExpression`,
`createOptionalChains`, `createOptionalChainByChainableExpression` and
`visitEachChild`, and the fixed-point loop of `upgrade` (src/index.ts) becomes
`upgradeLoop`.  Fallible code (`cast` from utils.ts throws) is modelled with
`Except`.
-/

/-- Modelled from the spec: the `TypeScriptVersion` enum lives in `src/types.ts`,
which is not part of the provided sources; only its ordering relative to the
v3.7 threshold (optional chaining / nullish coalescing) matters here. -/
inductive TypeScriptVersion
  | v3_6
  | v3_7
  | v3_8
deriving DecidableEq

def TypeScriptVersion.toNat : TypeScriptVersion → Nat
  | .v3_6 => 0
  | .v3_7 => 1
  | .v3_8 => 2

/-- A member name: a plain `Identifier` or a `PrivateIdentifier` (`#name`). -/
inductive MemberName
  | ident (text : String)
  | priv (text : String)
deriving DecidableEq

/-- Binary operator tokens the transformer distinguishes
(`operatorToken.kind` in transformer.ts); every other operator is `other`,
carrying its rendered text. -/
inductive BinOp
  | ampAmp
  | barBar
  | eqEq
  | eqEqEq
  | exclEq
  | exclEqEq
  | questionQuestion
  | other (text : String)
deriving DecidableEq

/-- The node kinds the transformer compares (`node.kind` / `SyntaxKind` in
TypeScript).  Optional-chain nodes share the kind of their non-optional
counterparts, exactly as in TypeScript. -/
inductive NodeKind
  | identifierKind
  | nullKeyword
  | undefinedKeyword
  | stringLiteralKind
  | voidExpressionKind
  | propertyAccessKind
  | elementAccessKind
  | callKind
  | binaryKind
  | conditionalKind
  | parenthesizedKind
deriving DecidableEq

/-- Expressions, embedding the TypeScript AST fragment the transformer
inspects.  `question` on the access forms marks an optional chain
(`?.`), i.e. the nodes produced by `createPropertyAccessChain`,
`createElementAccessChain` and `createCallChain`. -/
inductive Expr
  | ident (name : String)
  | nullLit
  | undefinedKw
  | strLit (value : String)
  | voidExpr (e : Expr)
  | paren (e : Expr)
  | propAccess (expr : Expr) (question : Bool) (name : MemberName)
  | elemAccess (expr : Expr) (question : Bool) (arg : Expr)
  | call (expr : Expr) (question : Bool) (tyArgs : List String) (args : List Expr)
  | binary (left : Expr) (op : BinOp) (right : Expr)
  | cond (condition whenTrue whenFalse : Expr)

/-- Kind of a node (`node.kind`). -/
def Expr.kind : Expr → NodeKind
  | .ident _ => .identifierKind
  | .nullLit => .nullKeyword
  | .undefinedKw => .undefinedKeyword
  | .strLit _ => .stringLiteralKind
  | .voidExpr _ => .voidExpressionKind
  | .paren _ => .parenthesizedKind
  | .propAccess _ _ _ => .propertyAccessKind
  | .elemAccess _ _ _ => .elementAccessKind
  | .call _ _ _ _ => .callKind
  | .binary _ _ _ => .binaryKind
  | .cond _ _ _ => .conditionalKind

def BinOp.text : BinOp → String
  | .ampAmp => "&&"
  | .barBar => "||"
  | .eqEq => "=="
  | .eqEqEq => "==="
  | .exclEq => "!="
  | .exclEqEq => "!=="
  | .questionQuestion => "??"
  | .other t => t

def MemberName.text : MemberName → String
  | .ident t => t
  | .priv t => "#" ++ t

mutual
/-- Rendered source text of a node (`node.getText(sourceFile)`); the embedding
prints deterministically with single spaces around binary/conditional
punctuation. -/
def Expr.getText : Expr → String
  | .ident n => n
  | .nullLit => "null"
  | .undefinedKw => "undefined"
  | .strLit v => "\"" ++ v ++ "\""
  | .voidExpr e => "void " ++ e.getText
  | .paren e => "(" ++ e.getText ++ ")"
  | .propAccess e q n => e.getText ++ (if q then "?." else ".") ++ n.text
  | .elemAccess e q a => e.getText ++ (if q then "?." else "") ++ "[" ++ a.getText ++ "]"
  | .call e q ty args =>
      e.getText ++ (if q then "?." else "")
        ++ (if ty.isEmpty then "" else "<" ++ String.intercalate ", " ty ++ ">")
        ++ "(" ++ String.intercalate ", " (getTextList args) ++ ")"
  | .binary l op r => l.getText ++ " " ++ op.text ++ " " ++ r.getText
  | .cond c t f => c.getText ++ " ? " ++ t.getText ++ " : " ++ f.getText

def getTextList : List Expr → List String
  | [] => []
  | e :: rest => e.getText :: getTextList rest
end

/-- `skipParens` from utils.ts: unwrap `ParenthesizedExpression` nodes. -/
def skipParens : Expr → Expr
  | .paren e => skipParens e
  | e => e

/-- Errors the transformer run can produce.  `invalidCast` models the
`Error('invalid cast')` thrown by `cast` in utils.ts; `invariant` models a
`TypeError` from dereferencing `undefined` in unreachable code paths; `fuel`
is the embedding's recursion budget running out. -/
inductive VErr
  | fuel
  | invalidCast
  | invariant
deriving DecidableEq

/-- `cast(expr.name, isIdentifier)` from transformer.ts line 123: succeeds on an
`Identifier`, throws on a `PrivateIdentifier`. -/
def castToIdentifier : MemberName → Except VErr String
  | .ident t => .ok t
  | .priv _ => .error .invalidCast

/-- `isChainableExpression` (transformer.ts lines 147-155): property access,
element access or call. -/
def isChainableExpression : Expr → Bool
  | .propAccess _ _ _ => true
  | .elemAccess _ _ _ => true
  | .call _ _ _ _ => true
  | _ => false

/-- The `.expression` property of a chainable node (its receiver). -/
def Expr.expression : Expr → Expr
  | .propAccess e _ _ => e
  | .elemAccess e _ _ => e
  | .call e _ _ _ => e
  | e => e

/-- `isIdentifier(e) && e.text === s`. -/
def isIdentifierNamed (e : Expr) (s : String) : Bool :=
  match e with
  | .ident t => decide (t = s)
  | _ => false

/-- JavaScript `String.prototype.trim`: strip whitespace from both ends.
Defined over the character list so that it evaluates inside the kernel (the
builtin `String.trim` is opaque to kernel reduction). -/
def trimText (s : String) : String :=
  String.mk
    (((s.data.dropWhile Char.isWhitespace).reverse.dropWhile
        Char.isWhitespace).reverse)

/-- Inlines the conjunction `isIdentifier(left) && isIdentifier(right) &&
left.text === right.text` of transformer.ts lines 227-233. -/
def bothIdentifiersSameText (l r : Expr) : Bool :=
  match l, r with
  | .ident a, .ident b => decide (a = b)
  | _, _ => false

/-- `isEqualityExpression` (transformer.ts lines 224-241): kinds must agree,
then identifier-text equality or whitespace-trimmed rendered-text equality. -/
def isEqualityExpression (l r : Expr) : Bool :=
  if l.kind ≠ r.kind then false
  else if bothIdentifiersSameText l r then true
  else if trimText l.getText = trimText r.getText then true
  else false

/-- `isPropertyAccessExpression(chain) && isPrivateIdentifier(chain.name)`
(transformer.ts lines 181-184). -/
def isPrivatePropertyAccess : Expr → Bool
  | .propAccess _ _ (.priv _) => true
  | _ => false

/-- Whether a node is a `BinaryExpression` whose operator is `&&` (the loop
condition of `getOptionalChains`, transformer.ts lines 161-164). -/
def isAmpAmpBinary : Expr → Bool
  | .binary _ .ampAmp _ => true
  | _ => false

/-- The collection loop of `getOptionalChains` (transformer.ts lines 159-171):
walk the left spine of `&&` operators, pushing each right operand to the front
of the accumulator; fail if a right operand is not chainable. -/
def collectChains : Expr → List Expr → Option (List Expr)
  | .binary l .ampAmp r, acc =>
      if isChainableExpression r then collectChains l (r :: acc) else none
  | _, acc => some acc

/-- The validation loop of `getOptionalChains` (transformer.ts lines 175-188):
each later link's receiver must equal the previous link, and a later link that
is a private-named property access voids the match.  Note the first link of the
list is only ever used as the starting `prefix`; its own name is not checked. -/
def validateChain : Expr → List Expr → Bool
  | _, [] => true
  | pfx, chain :: rest =>
      if ¬ isEqualityExpression pfx chain.expression then false
      else if isPrivatePropertyAccess chain then false
      else validateChain chain rest

/-- `getOptionalChains` (transformer.ts lines 158-191). -/
def getOptionalChains (expr : Expr) : Option (List Expr) :=
  match collectChains expr [] with
  | none => none
  | some chains =>
    match chains with
    | [] => none
    | c :: rest => if validateChain c rest then some (c :: rest) else none

/-- `doEqualityOrNotToNullCompare` (transformer.ts lines 295-305):
loose `==` / `!=` against the `null` literal. -/
def doEqualityOrNotToNullCompare (left : Expr) (op : BinOp) (right : Expr) :
    Option Expr :=
  if (op = BinOp.eqEq ∨ op = BinOp.exclEq) ∧ right.kind = NodeKind.nullKeyword
  then some left else none

/-- `doStrictEqualityOrNotToNullCompare` (transformer.ts lines 346-356). -/
def doStrictEqualityOrNotToNullCompare (left : Expr) (op : BinOp)
    (right : Expr) : Option Expr :=
  if (op = BinOp.eqEqEq ∨ op = BinOp.exclEqEq) ∧
      right.kind = NodeKind.nullKeyword
  then some left else none

/-- `doStrictEqualityOrNotToUndefinedCompare` (transformer.ts lines 320-331):
strict `===` / `!==` against the `undefined` keyword or an identifier spelled
`undefined`. -/
def doStrictEqualityOrNotToUndefinedCompare (left : Expr) (op : BinOp)
    (right : Expr) : Option Expr :=
  if (op = BinOp.eqEqEq ∨ op = BinOp.exclEqEq) ∧
      (right.kind = NodeKind.undefinedKeyword ∨
        isIdentifierNamed right "undefined" = true)
  then some left else none

/-- `doStrictEqualityOrNotToVoidExpressionCompare` (transformer.ts lines
371-381). -/
def doStrictEqualityOrNotToVoidExpressionCompare (left : Expr) (op : BinOp)
    (right : Expr) : Option Expr :=
  if (op = BinOp.eqEqEq ∨ op = BinOp.exclEqEq) ∧
      right.kind = NodeKind.voidExpressionKind
  then some left else none

/-- `binaryCompare` (transformer.ts lines 260-271): try the comparator in both
operand orders. -/
def binaryCompare (cb : Expr → BinOp → Expr → Option Expr)
    (left : Expr) (op : BinOp) (right : Expr) : Option Expr :=
  match cb left op right with
  | some x => some x
  | none => cb right op left

/-- `isEqualityOrNotToNull` (transformer.ts lines 282-291), applied to the
operands of a binary expression after `skipParens`. -/
def isEqualityOrNotToNull (l : Expr) (op : BinOp) (r : Expr) : Option Expr :=
  binaryCompare doEqualityOrNotToNullCompare (skipParens l) op (skipParens r)

/-- `isStrictEqualityOrNotToNull` (transformer.ts lines 333-342). -/
def isStrictEqualityOrNotToNull (l : Expr) (op : BinOp) (r : Expr) :
    Option Expr :=
  binaryCompare doStrictEqualityOrNotToNullCompare (skipParens l) op
    (skipParens r)

/-- `isStrictEqualityOrNotToUndefined` (transformer.ts lines 307-316). -/
def isStrictEqualityOrNotToUndefined (l : Expr) (op : BinOp) (r : Expr) :
    Option Expr :=
  binaryCompare doStrictEqualityOrNotToUndefinedCompare (skipParens l) op
    (skipParens r)

/-- `isStrictEqualityOrNotToVoidExpression` (transformer.ts lines 358-367). -/
def isStrictEqualityOrNotToVoidExpression (l : Expr) (op : BinOp) (r : Expr) :
    Option Expr :=
  binaryCompare doStrictEqualityOrNotToVoidExpressionCompare (skipParens l) op
    (skipParens r)

/-- `isNullableEqualityExpression` (transformer.ts lines 273-280); only binary
expressions reach it (the caller decomposes), everything else yields no
subject. -/
def isNullableEqualityExpression (e : Expr) : Option Expr :=
  match e with
  | .binary l op r =>
    match isEqualityOrNotToNull l op r with
    | some x => some x
    | none =>
      match isStrictEqualityOrNotToNull l op r with
      | some x => some x
      | none =>
        match isStrictEqualityOrNotToUndefined l op r with
        | some x => some x
        | none => isStrictEqualityOrNotToVoidExpression l op r
  | _ => none

/-- `isBinaryNullableEqualityOrNotExpression` (transformer.ts lines 386-399):
an `||` / `&&` of two binary expressions that each classify as a nullish
comparison on syntactically equal subjects. -/
def isBinaryNullableEqualityOrNotExpression (e : Expr) : Option Expr :=
  match e with
  | .binary l op r =>
    if op ≠ BinOp.barBar ∧ op ≠ BinOp.ampAmp then none
    else if l.kind ≠ NodeKind.binaryKind ∨ r.kind ≠ NodeKind.binaryKind then none
    else
      match isNullableEqualityExpression l, isNullableEqualityExpression r with
      | some a, some b => if isEqualityExpression a b then some a else none
      | _, _ => none
  | _ => none

/-- Which branch of the ternary `getNullishTargetBranch` (transformer.ts lines
206-222) selects, as a tag.  Used to model the JavaScript reference-identity
test `skipParens(expr.whenTrue) === condBranch` in
`upgradeConditionalExpression`: `condBranch` is `skipParens` of the node this
function selects, and two distinct branch nodes of a parse tree are never the
same object, so that test holds exactly when the selected branch is
`whenTrue`. -/
inductive Branch
  | whenTrue
  | whenFalse
deriving DecidableEq

/-- `getNullishTargetBranch` (transformer.ts lines 206-222): dispatch on the
raw (not parenthesis-stripped) condition's top-level binary operator. -/
def getNullishTargetBranch : Expr → Option Expr
  | .cond c t f =>
    match c with
    | .binary _ op _ =>
      match op with
      | .eqEq => some f
      | .eqEqEq => some f
      | .barBar => some f
      | .exclEq => some t
      | .exclEqEq => some t
      | .ampAmp => some t
      | _ => none
    | _ => none
  | _ => none

/-- Same dispatch as `getNullishTargetBranch`, returning the branch tag
instead of the branch node (see `Branch`). -/
def getNullishTargetSide : Expr → Option Branch
  | .cond c _ _ =>
    match c with
    | .binary _ op _ =>
      match op with
      | .eqEq => some .whenFalse
      | .eqEqEq => some .whenFalse
      | .barBar => some .whenFalse
      | .exclEq => some .whenTrue
      | .exclEqEq => some .whenTrue
      | .ampAmp => some .whenTrue
      | _ => none
    | _ => none
  | _ => none

/-- `getNullishCondBranch` (transformer.ts lines 193-204). -/
def getNullishCondBranch (c : Expr) (nullableConditionTarget : Expr) :
    Option Expr :=
  match getNullishTargetBranch c with
  | none => none
  | some target =>
    let l := skipParens target
    let r := skipParens nullableConditionTarget
    if isEqualityExpression l r then some l else none

/-- `getNullableConditionTarget` (transformer.ts lines 243-258): try the single
nullish comparison, then the compound form, then fall back to the entire
(parenthesis-stripped) condition. -/
def getNullableConditionTarget (e : Expr) : Option Expr :=
  match e with
  | .cond c _ _ =>
    match skipParens c with
    | .binary l op r =>
      match isNullableEqualityExpression (.binary l op r) with
      | some t => some t
      | none =>
        match isBinaryNullableEqualityOrNotExpression (.binary l op r) with
        | some t => some t
        | none => some (.binary l op r)
    | condition => some condition
  | _ => none

mutual

/-- The `visitor` closure of the transformer (transformer.ts lines 38-49):
dispatch on node kind, defaulting to a generic child visit.  The first `Nat`
argument is recursion fuel: the source recursion is not structural (rebuilding
an optional chain re-visits freshly built nodes), so every function of this
block spends one unit of fuel per call and reports `VErr.fuel` when the budget
runs out; any concrete run below merely needs a large enough budget. -/
def visitor (tgt : TypeScriptVersion) : Nat → Expr → Except VErr Expr
  | 0, _ => .error .fuel
  | n + 1, e =>
    match e with
    | .cond c t f => upgradeConditionalExpression tgt n (.cond c t f)
    | .binary l op r => upgradeBinaryExpression tgt n (.binary l op r)
    | e => visitEachChild tgt n e
termination_by structural n e => n

/-- `upgradeConditionalExpression` (transformer.ts lines 51-83).  The
`fallbackBranch` selection models `skipParens(expr.whenTrue) === condBranch`
through `getNullishTargetSide` (see `Branch`). -/
def upgradeConditionalExpression (tgt : TypeScriptVersion) :
    Nat → Expr → Except VErr Expr
  | 0, _ => .error .fuel
  | n + 1, e =>
    match e with
    | .cond c t f =>
      if TypeScriptVersion.v3_7.toNat ≤ tgt.toNat then
        match getNullableConditionTarget (.cond c t f) with
        | some nullableConditionTarget =>
          match getNullishCondBranch (.cond c t f) nullableConditionTarget with
          | some _ =>
            let fallbackBranch :=
              match getNullishTargetSide (.cond c t f) with
              | some .whenTrue => f
              | _ => t
            match visitEachChild tgt n nullableConditionTarget with
            | .error err => .error err
            | .ok left =>
              match visitEachChild tgt n fallbackBranch with
              | .error err => .error err
              | .ok right => .ok (.binary left .questionQuestion right)
          | none => visitEachChild tgt n (.cond c t f)
        | none => visitEachChild tgt n (.cond c t f)
      else visitEachChild tgt n (.cond c t f)
    | e => visitEachChild tgt n e
termination_by structural n e => n

/-- `upgradeBinaryExpression` (transformer.ts lines 85-94).  Note there is no
version test here: the optional-chain rewrite is not gated on `target`. -/
def upgradeBinaryExpression (tgt : TypeScriptVersion) :
    Nat → Expr → Except VErr Expr
  | 0, _ => .error .fuel
  | n + 1, e =>
    match getOptionalChains e with
    | some chains => createOptionalChains tgt n chains
    | none => visitEachChild tgt n e
termination_by structural n e => n

/-- `createOptionalChains` (transformer.ts lines 96-112): seed with the first
link over its own receiver, then fold the remaining links. -/
def createOptionalChains (tgt : TypeScriptVersion) :
    Nat → List Expr → Except VErr Expr
  | 0, _ => .error .fuel
  | n + 1, chains =>
    match chains with
    | [] => .error .invariant
    | first :: rest =>
      match createOptionalChainByChainableExpression tgt n first
          first.expression with
      | .error err => .error err
      | .ok last => createOptionalChainsLoop tgt n last rest
termination_by structural n chains => n

/-- The `for` loop of `createOptionalChains` (transformer.ts lines 104-110). -/
def createOptionalChainsLoop (tgt : TypeScriptVersion) :
    Nat → Expr → List Expr → Except VErr Expr
  | 0, _, _ => .error .fuel
  | _ + 1, last, [] => .ok last
  | n + 1, last, chain :: rest =>
    match createOptionalChainByChainableExpression tgt n chain last with
    | .error err => .error err
    | .ok next => createOptionalChainsLoop tgt n next rest
termination_by structural n last chains => n

/-- `createOptionalChainByChainableExpression` (transformer.ts lines 114-140):
build the optional (`?.`) form of one link over `left`, visiting children as
the source does; `cast(expr.name, isIdentifier)` throws on a private name. -/
def createOptionalChainByChainableExpression (tgt : TypeScriptVersion) :
    Nat → Expr → Expr → Except VErr Expr
  | 0, _, _ => .error .fuel
  | n + 1, e, left =>
    match e with
    | .propAccess _ _ name =>
      match visitEachChild tgt n left with
      | .error err => .error err
      | .ok l =>
        match castToIdentifier name with
        | .error err => .error err
        | .ok nm => .ok (.propAccess l true (.ident nm))
    | .elemAccess _ _ arg =>
      match visitEachChild tgt n left with
      | .error err => .error err
      | .ok l =>
        match visitEachChild tgt n arg with
        | .error err => .error err
        | .ok a => .ok (.elemAccess l true a)
    | .call _ _ ty args =>
      match visitEachChild tgt n left with
      | .error err => .error err
      | .ok l =>
        match visitList tgt n args with
        | .error err => .error err
        | .ok args2 => .ok (.call l true ty args2)
    | _ => .error .invariant
termination_by structural n e left => n

/-- `visitEachChild(node, visitor, context)`: rebuild the node with every child
expression visited. -/
def visitEachChild (tgt : TypeScriptVersion) : Nat → Expr → Except VErr Expr
  | 0, _ => .error .fuel
  | n + 1, e =>
    match e with
    | .ident s => .ok (.ident s)
    | .nullLit => .ok .nullLit
    | .undefinedKw => .ok .undefinedKw
    | .strLit v => .ok (.strLit v)
    | .voidExpr x =>
      match visitor tgt n x with
      | .error err => .error err
      | .ok x2 => .ok (.voidExpr x2)
    | .paren x =>
      match visitor tgt n x with
      | .error err => .error err
      | .ok x2 => .ok (.paren x2)
    | .propAccess x q nm =>
      match visitor tgt n x with
      | .error err => .error err
      | .ok x2 => .ok (.propAccess x2 q nm)
    | .elemAccess x q a =>
      match visitor tgt n x with
      | .error err => .error err
      | .ok x2 =>
        match visitor tgt n a with
        | .error err => .error err
        | .ok a2 => .ok (.elemAccess x2 q a2)
    | .call x q ty args =>
      match visitor tgt n x with
      | .error err => .error err
      | .ok x2 =>
        match visitList tgt n args with
        | .error err => .error err
        | .ok args2 => .ok (.call x2 q ty args2)
    | .binary l op r =>
      match visitor tgt n l with
      | .error err => .error err
      | .ok l2 =>
        match visitor tgt n r with
        | .error err => .error err
        | .ok r2 => .ok (.binary l2 op r2)
    | .cond c t f =>
      match visitor tgt n c with
      | .error err => .error err
      | .ok c2 =>
        match visitor tgt n t with
        | .error err => .error err
        | .ok t2 =>
          match visitor tgt n f with
          | .error err => .error err
          | .ok f2 => .ok (.cond c2 t2 f2)
termination_by structural n e => n

/-- `visitNodes(list, visitor)`: visit each element of a node list. -/
def visitList (tgt : TypeScriptVersion) :
    Nat → List Expr → Except VErr (List Expr)
  | 0, _ => .error .fuel
  | _ + 1, [] => .ok []
  | n + 1, e :: rest =>
    match visitor tgt n e with
    | .error err => .error err
    | .ok e2 =>
      match visitList tgt n rest with
      | .error err => .error err
      | .ok rest2 => .ok (e2 :: rest2)
termination_by structural n l => n

end

/-- Modelled from the spec: the fixed-point driver of `upgrade`
(src/index.ts lines 45-81).  One pass — parse, scan/rewrite via the visitor of
src/visitor.ts, apply the text edits — is abstracted as a function
`pass : String -> String × Bool`, the `Bool` being the `needAnotherPass` flag
reported by the change tracker of src/changes.ts (neither file is part of the
provided sources; per the spec, the flag records whether at least one
replacement occurred, and a pass with zero replacements leaves the text
unchanged).  The driver loop itself mirrors the `while (needAnotherPass)` loop
of src/index.ts exactly: it has no pass cap and no failure path, so the `Nat`
fuel only bounds how many passes the embedding will unfold; `none` means the
loop was still running when the fuel ran out. -/
def upgradeLoop (pass : String → String × Bool) : Nat → String → Option String
  | 0, _ => none
  | n + 1, doc =>
    let r := pass doc
    if r.2 then upgradeLoop pass n r.1 else some r.1

/-- If the driver returns, the text it returns is a fixed point of the pass:
the final pass reported no replacement, hence left the text unchanged. -/
theorem upgradeLoop_fixpoint (pass : String → String × Bool)
    (hpass : ∀ s, (pass s).2 = false → (pass s).1 = s) :
    ∀ (n : Nat) (s t : String), upgradeLoop pass n s = some t →
      pass t = (t, false) := by
  intro n
  induction n with
  | zero => intro s t h; simp [upgradeLoop] at h
  | succ n ih =>
    intro s t h
    rw [upgradeLoop] at h
    by_cases hc : (pass s).2 = true
    · rw [if_pos hc] at h
      exact ih _ _ h
    · rw [if_neg hc] at h
      have h2 : (pass s).2 = false := by
        cases hval : (pass s).2 <;> simp_all
      have h1 : (pass s).1 = s := hpass s h2
      have : s = t := by
        have := h
        rw [h1] at this
        exact Option.some.inj this
      subst this
      calc pass s = ((pass s).1, (pass s).2) := rfl
        _ = (s, false) := by rw [h1, h2]

/-- A concrete pass used to instantiate driver theorems: rewrites any text to
the fixed text `"b"`, reporting a replacement unless it was already `"b"`. -/
def passExample : String → String × Bool :=
  fun s => ("b", !(decide (s = "b")))

/-- A pass that always reports `needAnotherPass`; drives the no-cap theorem. -/
def alwaysAnotherPass : String → String × Bool :=
  fun s => (s, true)

/-- Sample AST: `a.b`. -/
def propAB : Expr := .propAccess (.ident "a") false (.ident "b")

/-- Sample AST: `a && a.b && a.b["c"] && a.b["c"]()` as the parser
left-associates it. -/
def sampleChainInput : Expr :=
  .binary
    (.binary (.binary (.ident "a") .ampAmp propAB) .ampAmp
      (.elemAccess propAB false (.strLit "c")))
    .ampAmp
    (.call (.elemAccess propAB false (.strLit "c")) false [] [])

/-- Sample AST: `a?.b?.["c"]?.()`. -/
def sampleChainOutput : Expr :=
  .call
    (.elemAccess (.propAccess (.ident "a") true (.ident "b")) true
      (.strLit "c"))
    true [] []

/-- C4: on the input `a && a.b && a.b["c"] && a.b["c"]()` the transformer, at a
version with optional chaining, produces `a?.b?.["c"]?.()`: the whole
left-associated member/element/call chain collapses in the one visit of the
outermost `&&` node, not link by link. -/
theorem chain_fully_collapsed :
    visitor .v3_7 30 sampleChainInput = .ok sampleChainOutput ∧
    sampleChainInput.getText = "a && a.b && a.b[\"c\"] && a.b[\"c\"]()" ∧
    sampleChainOutput.getText = "a?.b?.[\"c\"]?.()" :=
  ⟨rfl, rfl, rfl⟩

/-- Sample AST: `a && a.#b`. -/
def privateShortChain : Expr :=
  .binary (.ident "a") .ampAmp (.propAccess (.ident "a") false (.priv "b"))

/-- Sample AST: `a && a.b && a.b.#c` (private name in a later link). -/
def privateTailChain : Expr :=
  .binary (.binary (.ident "a") .ampAmp propAB) .ampAmp
    (.propAccess propAB false (.priv "c"))

/-- C1: the private-name check of `getOptionalChains` skips the first collected
link, so on `a && a.#b` the match succeeds and the rewrite reaches
`cast(expr.name, isIdentifier)`, which throws — the transformer does not
return the text unchanged.  For a private name in any later link the matcher
does reject the chain. -/
theorem private_member_first_link_throws :
    visitor .v3_7 30 privateShortChain = .error .invalidCast ∧
    privateShortChain.getText = "a && a.#b" ∧
    getOptionalChains privateTailChain = none :=
  ⟨rfl, rfl, rfl⟩

/-- Sample AST: `a === null ? b : a`. -/
def strictNullTernary : Expr :=
  .cond (.binary (.ident "a") .eqEqEq .nullLit) (.ident "b") (.ident "a")

/-- C2: `upgradeBinaryExpression` has no version test, so the optional-chain
rewrite fires even for a target below v3.7 (here `a && a.b` becomes `a?.b` at
v3.6), while the nullish-coalescing rewrite is correctly gated (the ternary is
left unchanged at v3.6 and rewritten at v3.7). -/
theorem optional_chain_not_version_gated :
    visitor .v3_6 30 (.binary (.ident "a") .ampAmp propAB)
      = .ok (.propAccess (.ident "a") true (.ident "b")) ∧
    (Expr.propAccess (.ident "a") true (.ident "b")).getText = "a?.b" ∧
    visitor .v3_6 30 strictNullTernary = .ok strictNullTernary ∧
    visitor .v3_7 30 strictNullTernary
      = .ok (.binary (.ident "a") .questionQuestion (.ident "b")) :=
  ⟨rfl, rfl, rfl, rfl⟩

/-- The identifier clause of `isEqualityExpression`, as a characterization. -/
theorem bothIdentifiersSameText_iff (l r : Expr) :
    bothIdentifiersSameText l r = true ↔
      ∃ s, l = .ident s ∧ r = .ident s := by
  cases l <;> cases r <;> simp [bothIdentifiersSameText] <;> exact eq_comm

/-- C6 counterexample: the comparator rejects `a` versus `(a)` (their node
kinds differ), even though their rendered texts agree once parentheses are
stripped — so the claimed "if and only if" characterization fails. -/
theorem comparator_paren_counterexample :
    isEqualityExpression (.ident "a") (.paren (.ident "a")) = false ∧
    trimText (skipParens (.paren (.ident "a"))).getText
      = trimText (Expr.ident "a").getText :=
  ⟨rfl, rfl⟩

/-- C6 (amended): the comparator returns true iff the two nodes have the same
syntax kind and either both are identifiers with identical names or their
rendered texts, whitespace-trimmed (parentheses are not stripped here; callers
strip them before the call), coincide. -/
theorem comparator_characterization (l r : Expr) :
    isEqualityExpression l r = true ↔
      (l.kind = r.kind ∧
        ((∃ s, l = .ident s ∧ r = .ident s) ∨
          trimText l.getText = trimText r.getText)) := by
  rw [isEqualityExpression, ← bothIdentifiersSameText_iff l r]
  split
  · next hk => simp [hk]
  · next hk =>
    rw [not_not] at hk
    split
    · next hb => simp [hk, hb]
    · next hb =>
      split
      · next ht => simp [hk, hb, ht]
      · next ht => simp [hk, hb, ht]

/-- Sample AST: `a == undefined ? b : a`. -/
def looseUndefinedTernary : Expr :=
  .cond (.binary (.ident "a") .eqEq (.ident "undefined")) (.ident "b")
    (.ident "a")

/-- C9: the loose comparator only accepts `==`/`!=` against the `null`
literal, and the strict-undefined comparator only accepts `===`/`!==` against
`undefined`; consequently `a == undefined ? b : a` is not recognized as a
nullish guard and the ternary is returned unchanged. -/
theorem loose_undefined_not_guard :
    (∀ l op r, (doEqualityOrNotToNullCompare l op r).isSome ↔
      ((op = BinOp.eqEq ∨ op = BinOp.exclEq) ∧
        r.kind = NodeKind.nullKeyword)) ∧
    (∀ l op r, (doStrictEqualityOrNotToUndefinedCompare l op r).isSome ↔
      ((op = BinOp.eqEqEq ∨ op = BinOp.exclEqEq) ∧
        (r.kind = NodeKind.undefinedKeyword ∨
          isIdentifierNamed r "undefined" = true))) ∧
    visitor .v3_7 30 looseUndefinedTernary = .ok looseUndefinedTernary := by
  refine ⟨?_, ?_, rfl⟩
  · intro l op r
    rw [doEqualityOrNotToNullCompare]
    split <;> simp_all
  · intro l op r
    rw [doStrictEqualityOrNotToUndefinedCompare]
    split <;> simp_all

/-- Helper: when an expression is not an `&&` binary expression, the
collection loop of `getOptionalChains` stops at it, keeping the accumulator. -/
theorem collectChains_of_not_ampAmp (x : Expr) (acc : List Expr)
    (hx : isAmpAmpBinary x = false) : collectChains x acc = some acc := by
  cases x <;> try rfl
  case binary l op r => cases op <;> simp_all [isAmpAmpBinary, collectChains]

/-- C3: for `x && e` with `x` not itself an `&&` expression and `e` a
chainable access, the matcher collects just `[e]` — it never compares `x`
with the receiver of `e` — and the visit of the whole expression reduces to
building the optional chain from `[e]` alone, an expression in which `x` does
not occur; concretely `x && a.b` becomes `a?.b`. -/
theorem andGuard_left_discarded (tgt : TypeScriptVersion) (n : Nat)
    (x e : Expr) (hx : isAmpAmpBinary x = false)
    (he : isChainableExpression e = true) :
    getOptionalChains (.binary x .ampAmp e) = some [e] ∧
    visitor tgt (n + 1 + 1) (.binary x .ampAmp e)
      = createOptionalChains tgt n [e] ∧
    visitor .v3_7 9 (.binary (.ident "x") .ampAmp propAB)
      = .ok (.propAccess (.ident "a") true (.ident "b")) := by
  have hcol : collectChains (.binary x .ampAmp e) [] = some [e] := by
    rw [collectChains]
    simp [he, collectChains_of_not_ampAmp x [e] hx]
  have hcho : getOptionalChains (.binary x .ampAmp e) = some [e] := by
    rw [getOptionalChains, hcol]
    simp [validateChain]
  refine ⟨hcho, ?_, rfl⟩
  simp only [visitor, upgradeBinaryExpression, hcho]

/-- Witness for C3 at concrete inputs. -/
theorem andGuard_left_discarded_witness :
    getOptionalChains (.binary (.ident "x") .ampAmp propAB) = some [propAB] ∧
    visitor .v3_7 (7 + 1 + 1) (.binary (.ident "x") .ampAmp propAB)
      = createOptionalChains .v3_7 7 [propAB] ∧
    visitor .v3_7 9 (.binary (.ident "x") .ampAmp propAB)
      = .ok (.propAccess (.ident "a") true (.ident "b")) :=
  andGuard_left_discarded .v3_7 7 (.ident "x") propAB rfl rfl

/-- C5: a ternary guarded by the compound nullish test on a subject identifier
with the guarded branch equal to that subject becomes `subject ?? fallback`:
for an `||` condition the guarded branch is `whenFalse`, for `&&` it is
`whenTrue`, and in both cases the other branch becomes the fallback. -/
theorem compound_guard_ternary (n : Nat) (a b : String) :
    visitor .v3_7 (n + 1 + 1 + 1)
      (.cond (.binary (.binary (.ident a) .eqEqEq .nullLit) .barBar
          (.binary (.ident a) .eqEqEq (.ident "undefined")))
        (.ident b) (.ident a))
      = .ok (.binary (.ident a) .questionQuestion (.ident b)) ∧
    visitor .v3_7 (n + 1 + 1 + 1)
      (.cond (.binary (.binary (.ident a) .exclEqEq .nullLit) .ampAmp
          (.binary (.ident a) .exclEqEq (.ident "undefined")))
        (.ident a) (.ident b))
      = .ok (.binary (.ident a) .questionQuestion (.ident b)) := by
  constructor <;>
    simp [visitor, upgradeConditionalExpression, getNullableConditionTarget,
      skipParens, isNullableEqualityExpression, isEqualityOrNotToNull,
      isStrictEqualityOrNotToNull, isStrictEqualityOrNotToUndefined,
      isStrictEqualityOrNotToVoidExpression, binaryCompare,
      doEqualityOrNotToNullCompare, doStrictEqualityOrNotToNullCompare,
      doStrictEqualityOrNotToUndefinedCompare,
      doStrictEqualityOrNotToVoidExpressionCompare,
      isBinaryNullableEqualityOrNotExpression, isEqualityExpression,
      bothIdentifiersSameText, isIdentifierNamed, Expr.kind,
      getNullishCondBranch, getNullishTargetBranch, getNullishTargetSide,
      visitEachChild, TypeScriptVersion.toNat]

/-- Sample AST: `a && b`. -/
def andAB : Expr := .binary (.ident "a") .ampAmp (.ident "b")

/-- C10: when neither classifier recognizes the (parenthesis-stripped)
condition, `getNullableConditionTarget` returns the whole condition itself as
the subject; consequently `a && b ? a && b : c` — whose guarded branch is
textually identical to its whole condition — is rewritten to
`(a && b) ?? c` even though `a && b` is not a nullish test. -/
theorem unrecognized_condition_fallback (c t f : Expr)
    (h1 : isNullableEqualityExpression (skipParens c) = none)
    (h2 : isBinaryNullableEqualityOrNotExpression (skipParens c) = none) :
    getNullableConditionTarget (.cond c t f) = some (skipParens c) ∧
    visitor .v3_7 30 (.cond andAB andAB (.ident "c"))
      = .ok (.binary andAB .questionQuestion (.ident "c")) := by
  refine ⟨?_, rfl⟩
  rw [getNullableConditionTarget]
  generalize hsp : skipParens c = sc at h1 h2 ⊢
  cases sc <;> simp_all

/-- Witness for C10 at concrete inputs. -/
theorem unrecognized_condition_fallback_witness :
    getNullableConditionTarget (.cond andAB andAB (.ident "c"))
      = some (skipParens andAB) ∧
    visitor .v3_7 30 (.cond andAB andAB (.ident "c"))
      = .ok (.binary andAB .questionQuestion (.ident "c")) :=
  unrecognized_condition_fallback andAB andAB (.ident "c") rfl rfl

/-- C7: running the driver again on a text it returned is a no-op: the first
run only returns after a pass that reported no replacement, and a pass with
zero replacements leaves the text unchanged, so the second run's first pass
reports no replacement on the same text and returns it immediately. -/
theorem upgrade_idempotent (pass : String → String × Bool)
    (hpass : ∀ s, (pass s).2 = false → (pass s).1 = s)
    (n m : Nat) (s t : String) (h : upgradeLoop pass n s = some t) :
    upgradeLoop pass (m + 1) t = some t := by
  have hfix := upgradeLoop_fixpoint pass hpass n s t h
  simp [upgradeLoop, hfix]

/-- Witness for C7 at a concrete pass and text. -/
theorem upgrade_idempotent_witness :
    upgradeLoop passExample (0 + 1) "b" = some "b" :=
  upgrade_idempotent passExample
    (by
      intro s h
      simp [passExample] at h ⊢
      exact h.symm)
    2 0 "a" "b" (by rfl)

/-- C8: the driver's `while (needAnotherPass)` loop has no pass-count cap and
no failure path: with a pass that always requests another pass it is still
running after any finite number of passes, and no distinct error is ever
reported to the caller. -/
theorem upgradeLoop_no_cap (n : Nat) (s : String) :
    upgradeLoop alwaysAnotherPass n s = none := by
  induction n generalizing s with
  | zero => rfl
  | succ n ih => simp [upgradeLoop, alwaysAnotherPass, ih]
